import Mathlib

/-!
Shallow embedding of the lyrics/background service of the YTM-Lyrics-UI
extension (src/background.js) and proofs about its specification claims.

Strings are modelled as lists of Unicode code points (`List Nat`), which is
faithful for all inputs considered here (JavaScript strings are UTF-16 code
unit sequences; every code point that appears in the embedded code and in
the claims lies in the Basic Multilingual Plane, where the two coincide).
JavaScript number arithmetic on timestamps and durations is modelled over
`ℚ`/`Int` (exact arithmetic; the claims are stated over exact values).
-/

namespace YTM

/-- Code-point string. -/
abbrev Str := List Nat

/-- Convert a Lean string literal to its code points, for readable inputs. -/
def strToCodes (s : String) : Str := s.toList.map Char.toNat

/-- The character set of the JavaScript regular-expression class `\s`
(ECMAScript WhiteSpace ∪ LineTerminator), which is also the set trimmed by
`String.prototype.trim`. -/
def isJsWS (n : Nat) : Bool :=
  n = 9 || n = 10 || n = 11 || n = 12 || n = 13 || n = 32 || n = 160 ||
  n = 0x1680 || (0x2000 ≤ n && n ≤ 0x200A) || n = 0x2028 || n = 0x2029 ||
  n = 0x202F || n = 0x205F || n = 0x3000 || n = 0xFEFF

/-- `String.prototype.toLowerCase` restricted to the code points relevant to
the embedded code: ASCII A-Z map to a-z; every other code point that occurs
in the retained character classes of `normalize` (digits, lowercase ASCII,
Kana, CJK) is case-less in Unicode, so identity is faithful there. -/
def jsToLower (n : Nat) : Nat := if 65 ≤ n ∧ n ≤ 90 then n + 32 else n

/-- `String.prototype.trim`: drop leading and trailing whitespace. -/
def trimWS (l : Str) : Str :=
  ((l.dropWhile isJsWS).reverse.dropWhile isJsWS).reverse

/-- Collapse adjacent space characters (code 32) into one. -/
def squeezeSpaces : Str → Str
  | [] => []
  | [c] => [c]
  | a :: b :: rest =>
    if a = 32 ∧ b = 32 then squeezeSpaces (b :: rest)
    else a :: squeezeSpaces (b :: rest)

/-- `sanitize` from background.js:
`text.replace` of the global pattern `[\s　]+` by a single space (code 32), then `trim()` (U+3000 is already in `\s`).
A run of whitespace becomes a single space, then the ends are trimmed;
mapping each whitespace character to a space and collapsing adjacent spaces
produces exactly the same string as the global regex replacement. -/
def sanitize (l : Str) : Str :=
  trimWS (squeezeSpaces (l.map (fun c => if isJsWS c then 32 else c)))

/-- The character class retained by `normalize` in background.js:
`[a-z0-9぀-ゟ゠-ヿ一-鿿]` (everything else is
deleted by the complement-class global replacement). -/
def keepNorm (n : Nat) : Bool :=
  (97 ≤ n && n ≤ 122) || (48 ≤ n && n ≤ 57) ||
  (0x3040 ≤ n && n ≤ 0x309F) || (0x30A0 ≤ n && n ≤ 0x30FF) ||
  (0x4E00 ≤ n && n ≤ 0x9FFF)

/-- `normalize` from background.js:
`str.toLowerCase().replace(/[^a-z0-9぀-ゟ゠-ヿ一-鿿]/g, "")`. -/
def normalize (s : Str) : Str := (s.map jsToLower).filter keepNorm

/-- `CONFIG.storageKeyPrefix` = "lyric_". -/
def storageKeyPrefix : String := "lyric_"

/-- `getCacheKey` from background.js:
`CONFIG.storageKeyPrefix + normalize(title) + "_" + normalize(artist)`
(code 95 is the underscore). -/
def getCacheKey (title artist : Str) : Str :=
  strToCodes storageKeyPrefix ++ normalize title ++ [95] ++ normalize artist

/-- Decimal digit (code points 48-57). -/
def isDigitC (n : Nat) : Bool := 48 ≤ n && n ≤ 57

/-- Two-digit `parseInt`. -/
def twoDigits (a b : Nat) : Nat := (a - 48) * 10 + (b - 48)

/-- `parseFloat("0." + digits)`: the digit string read as a decimal fraction
of one (exact rational value). -/
def fracOfDigits (fr : Str) : ℚ :=
  ((fr.foldl (fun acc d => acc * 10 + (d - 48)) 0 : ℕ) : ℚ) / ((10 ^ fr.length : ℕ) : ℚ)

/-- One timed lyric line, `{time, text}`. -/
structure LyricLine where
  time : ℚ
  text : Str
deriving DecidableEq

/-- Attempt to match `\[(\d{2}):(\d{2})\.(\d{2,3})\]` at the start of the
list; on success returns (minutes, seconds, fraction digits, match length).
The `{2,3}` quantifier is greedy: three digits are taken when the third
character after the dot is a digit followed by `]`, otherwise two digits
followed immediately by `]` (codes: 91 `[`, 58 `:`, 46 `.`, 93 `]`). -/
def matchTimeAt (l : Str) : Option (Nat × Nat × Str × Nat) :=
  match l with
  | a :: rest1 =>
    if a = 91 then
      match rest1 with
      | m1 :: m2 :: b :: s1 :: s2 :: c :: f1 :: f2 :: rest =>
        if b = 58 ∧ c = 46 ∧ isDigitC m1 ∧ isDigitC m2 ∧ isDigitC s1 ∧
            isDigitC s2 ∧ isDigitC f1 ∧ isDigitC f2 then
          match rest with
          | d :: rest2 =>
            if d = 93 then some (twoDigits m1 m2, twoDigits s1 s2, [f1, f2], 10)
            else
              match rest2 with
              | e :: _ =>
                if isDigitC d ∧ e = 93 then
                  some (twoDigits m1 m2, twoDigits s1 s2, [f1, f2, d], 11)
                else none
              | [] => none
          | [] => none
        else none
      | _ => none
    else none
  | [] => none

/-- The leftmost regex match in a line: the text before the match, the
captured fields, and the text after the match. -/
structure TimeMatch where
  pre : Str
  min : Nat
  sec : Nat
  frac : Str
  suf : Str

/-- Scan a line left to right for the first timestamp match, exactly as the
regex engine tries successive start positions. -/
def scanTime : Str → Option TimeMatch
  | [] => none
  | c :: rest =>
    match matchTimeAt (c :: rest) with
    | some (mn, sc, fr, len) => some ⟨[], mn, sc, fr, (c :: rest).drop len⟩
    | none => (scanTime rest).map (fun t => { t with pre := c :: t.pre })

/-- One iteration of the `parseLRC` loop body: match the time regex, strip
the first match from the line, trim, and keep the line only if the
remaining text is non-empty. -/
def parseLine (line : Str) : Option LyricLine :=
  match scanTime line with
  | none => none
  | some t =>
    let text := trimWS (t.pre ++ t.suf)
    if text = [] then none
    else some ⟨((t.min * 60 + t.sec : ℕ) : ℚ) + fracOfDigits t.frac, text⟩

/-- `String.prototype.split` at the newline character (code 10). -/
def splitNL : Str → List Str
  | [] => [[]]
  | c :: rest =>
    if c = 10 then [] :: splitNL rest
    else
      match splitNL rest with
      | [] => [[c]]
      | h :: t => (c :: h) :: t

/-- `parseLRC` from background.js: `null` for an empty/absent input,
otherwise every line carrying a `[MM:SS.ff]` timestamp and non-empty
remaining text, in document order. -/
def parseLRC (s : Str) : Option (List LyricLine) :=
  if s = [] then none else some ((splitNL s).filterMap parseLine)

/-- `parseLRC` applied to an optional field (an absent field is falsy and
yields `null`). -/
def parseLRCOpt : Option Str → Option (List LyricLine)
  | none => none
  | some s => parseLRC s

/-- Substring containment, `String.prototype.includes`:
`strIncludes hay needle` is true when `needle` occurs contiguously in
`hay` (the empty needle is always contained). -/
def strIncludes : Str → Str → Bool
  | [], needle => needle.isEmpty
  | c :: rest, needle => List.isPrefixOf needle (c :: rest) || strIncludes rest needle

/-- `checkArtistMatch` from background.js: exact normalized match scores
100, containment either way scores 80, anything else 0. -/
def checkArtistMatch (artistA artistB : Str) : Int :=
  let normA := normalize artistA
  let normB := normalize artistB
  if normA = normB then 100
  else if strIncludes normA normB || strIncludes normB normA then 80
  else 0

/-- The key "ja". -/
def jaKey : String := "ja"

/-- The key "ko". -/
def koKey : String := "ko"

/-- The key "zh". -/
def zhKey : String := "zh"

/-- The key "ru". -/
def ruKey : String := "ru"

/-- `SCRIPT_REGEX` from background.js as a test on a sample string, keyed by
the language code. The `ja` entry is the literal source pattern
`[\u3-…-鿿]` (the file really contains a U+2026 ellipsis inside the
class). Under ECMAScript Annex B, `\u` not followed by four hex digits is
an identity escape for `u`, so the class denotes
`u | U+0033-U+2026 | - | U+9FFF`. The ko/zh/ru entries are the Hangul,
CJK and Cyrillic ranges as written. -/
def scriptRegexTest (lang : Str) (sample : Str) : Bool :=
  if lang = strToCodes jaKey then
    sample.any (fun n => n = 117 || (0x33 ≤ n && n ≤ 0x2026) || n = 45 || n = 0x9FFF)
  else if lang = strToCodes koKey then
    sample.any (fun n => 0xAC00 ≤ n && n ≤ 0xD7AF)
  else if lang = strToCodes zhKey then
    sample.any (fun n => 0x4E00 ≤ n && n ≤ 0x9FFF)
  else if lang = strToCodes ruKey then
    sample.any (fun n => 0x0400 ≤ n && n ≤ 0x04FF)
  else false

/-- A candidate record returned by the catalog search endpoint. An absent
`syncedLyrics` field is `none`; `duration` 0 stands for a falsy duration. -/
structure Item where
  trackName : Str
  artistName : Str
  duration : ℚ
  syncedLyrics : Option Str
  instrumental : Bool
deriving DecidableEq

/-- The duration block of `calculateScore`. `none` models the early
`return -1000`; `some d` is the score adjustment added otherwise. The
block runs only when `targetDuration > 0 && item.duration` (a zero
duration is falsy). -/
def durationAdj (targetDuration itemDuration : ℚ) : Option Int :=
  if targetDuration > 0 ∧ itemDuration ≠ 0 then
    let diff := |itemDuration - targetDuration|
    if diff ≤ 2 then some 50
    else if diff ≤ 5 then some 20
    else if diff > 10 then none
    else some (-50)
  else some 0

/-- `calculateScore` from background.js. A zero artist match short-circuits
to -9999; a duration gap above ten seconds short-circuits to -1000 before
the title, script and instrumental adjustments are applied. -/
def calculateScore (item : Item) (qTitle qArtist userLang : Str)
    (targetDuration : ℚ) : Int :=
  let iTitle := normalize item.trackName
  let qT := normalize qTitle
  let artistMatchScore := checkArtistMatch item.artistName qArtist
  if artistMatchScore = 0 then -9999
  else
    match durationAdj targetDuration item.duration with
    | none => -1000
    | some dAdj =>
      let titleAdj : Int :=
        if iTitle = qT then 40
        else if strIncludes iTitle qT || strIncludes qT iTitle then 20
        else 0
      let lyricsSample := item.syncedLyrics.getD []
      let scriptAdj : Int := if scriptRegexTest userLang lyricsSample then 100 else 0
      let instAdj : Int := if item.instrumental then 100 else 0
      artistMatchScore + dAdj + titleAdj + scriptAdj - instAdj

/-- Outcome of one `fetch` of the get endpoint: a thrown network/JSON error,
or a response with an HTTP status and an optional `syncedLyrics` field. -/
inductive GetNet where
  | failure
  | ok (status : Nat) (syncedLyrics : Option Str)
deriving DecidableEq

/-- `tryApiGet` from background.js. The first component records whether the
network request was issued at all: a falsy track name, artist name or
duration returns `null` before any fetch. On HTTP 200 the `syncedLyrics`
field of the response body is parsed; any other status or a thrown error yields `null`.
`album` and `includeAlbum` only shape the request URL. -/
def tryApiGet (track_name artist_name album_name : Str) (duration : ℚ)
    (includeAlbum : Bool) (net : GetNet) : Bool × Option (List LyricLine) :=
  if track_name.isEmpty || artist_name.isEmpty || decide (duration = 0) then
    (false, none)
  else
    (true,
      match net with
      | .failure => none
      | .ok status body => if status = 200 then parseLRCOpt body else none)

/-- Outcome of one `fetch` of the search endpoint. -/
inductive SearchNet where
  | failure
  | ok (items : List Item)
deriving DecidableEq

/-- `item.syncedLyrics` truthiness: present and non-empty. -/
def truthyLyrics (it : Item) : Bool :=
  match it.syncedLyrics with
  | none => false
  | some s => !s.isEmpty

/-- `(lang || "").split` at the dash, first component: the prefix before
the first dash (code 45). -/
def splitDashHead (l : Str) : Str := l.takeWhile (fun c => c ≠ 45)

/-- Stable descending insertion of a scored candidate: an element moves in
front only of strictly lower scores, so equal scores keep their original
relative order. -/
def insertDesc (x : Item × Int) : List (Item × Int) → List (Item × Int)
  | [] => [x]
  | y :: ys => if x.2 > y.2 then x :: y :: ys else y :: insertDesc x ys

/-- `Array.prototype.sort` with comparator `(a, b) => b.score - a.score`.
ECMAScript specifies sort as stable, and for a consistent comparator the
result is the unique permutation that is sorted by the comparator and
preserves the original order of ties; stable insertion sort produces
exactly that permutation. -/
def sortByScoreDesc (l : List (Item × Int)) : List (Item × Int) :=
  l.foldl (fun acc x => insertDesc x acc) []

/-- `tryApiSearch` from background.js: filter the response to candidates
with truthy synced lyrics, score them, sort by score descending, and parse
the lyrics of the best candidate when its score exceeds 70; every error path
yields `null`. `album` only appears in the outbound query string. -/
def tryApiSearch (title artist album lang : Str) (duration : ℚ)
    (net : SearchNet) : Option (List LyricLine) :=
  match net with
  | .failure => none
  | .ok data =>
    let candidates := data.filter truthyLyrics
    if candidates.isEmpty then none
    else
      let shortLang := splitDashHead lang
      let scored := candidates.map
        (fun it => (it, calculateScore it title artist shortLang duration))
      match sortByScoreDesc scored with
      | [] => none
      | best :: _ =>
        if best.2 > 70 then parseLRCOpt best.1.syncedLyrics else none

/-! ### cleanText

`cleanText` applies two regex replacements and a trim:
`text.replace(/\s*[\(\[-\{\<].*?[\)\]-\}\>].*/, "")` followed by the global
case-insensitive removal of promotional tokens and `.trim()`. Inside the
character classes of the first pattern, `\[-\{` and `\]-\}` are ranges
(U+005B-U+007B and U+005D-U+007D), so both classes also contain the ASCII
lowercase letters. -/

/-- ECMAScript LineTerminator (what `.` does not match). -/
def isLineTerm (n : Nat) : Bool := n = 10 || n = 13 || n = 0x2028 || n = 0x2029

/-- First character class of the bracket-stripping regex:
`( | U+005B-U+007B | <`. -/
def inOpenClass (n : Nat) : Bool := n = 40 || n = 60 || (0x5B ≤ n && n ≤ 0x7B)

/-- Second character class of the bracket-stripping regex:
`) | U+005D-U+007D | >`. -/
def inCloseClass (n : Nat) : Bool := n = 41 || n = 62 || (0x5D ≤ n && n ≤ 0x7D)

/-- Lazy `.*?` followed by the closing class: index of the first
closing-class character reachable without crossing a line terminator. -/
def findClose : Str → Option Nat
  | [] => none
  | c :: rest =>
    if inCloseClass c then some 0
    else if isLineTerm c then none
    else (findClose rest).map (fun k => k + 1)

/-- Length of the maximal run of non-line-terminator characters at the
head (what greedy `.*` consumes). -/
def restOfLineLen : Str → Nat
  | [] => 0
  | c :: rest => if isLineTerm c then 0 else 1 + restOfLineLen rest

/-- Length of the maximal whitespace run at the head. -/
def wsRunLen : Str → Nat
  | [] => 0
  | c :: rest => if isJsWS c then 1 + wsRunLen rest else 0

/-- Match `[open].*?[close].*` exactly at the head; returns the length
matched. -/
def tryOpenAt : Str → Option Nat
  | [] => none
  | c :: rest =>
    if inOpenClass c then
      match findClose rest with
      | some k => some (1 + (k + 1) + restOfLineLen (rest.drop (k + 1)))
      | none => none
    else none

/-- Backtracking for the leading `\s*`: try consuming `j` whitespace
characters first (greedy), then fewer, before giving up. -/
def tryWsOpen : Nat → Str → Option Nat
  | 0, l => tryOpenAt l
  | j + 1, l =>
    match tryOpenAt (l.drop (j + 1)) with
    | some m => some ((j + 1) + m)
    | none => tryWsOpen j l

/-- Match the whole bracket-stripping pattern exactly at the head. -/
def tryBracketMatchAt (l : Str) : Option Nat := tryWsOpen (wsRunLen l) l

/-- `replace(/\s*[\(\[-\{\<].*?[\)\]-\}\>].*/, "")`: delete the leftmost
match (the replacement is empty and the regex is not global). -/
def replaceFirstBracket : Str → Str
  | [] => []
  | c :: rest =>
    match tryBracketMatchAt (c :: rest) with
    | some m => (c :: rest).drop m
    | none => c :: replaceFirstBracket rest

/-- Case-insensitive literal match at the head; returns the remainder. -/
def matchLitCI : Str → Str → Option Str
  | [], l => some l
  | _ :: _, [] => none
  | p :: ps, c :: cs => if jsToLower c = p then matchLitCI ps cs else none

/-- `\s+` at the head: consume the maximal non-empty whitespace run (the
following token is a letter, so greedy consumption is exact). -/
def matchWsPlus (l : Str) : Option Str :=
  let k := wsRunLen l
  if k = 0 then none else some (l.drop k)

/-- Match `word1\s+word2` case-insensitively at the head. -/
def matchTwoWords (w1 w2 : Str) (l : Str) : Option Str :=
  match matchLitCI w1 l with
  | none => none
  | some r1 =>
    match matchWsPlus r1 with
    | none => none
    | some r2 => matchLitCI w2 r2

/-- The word "official". -/
def officialWord : String := "official"

/-- The word "video". -/
def videoWord : String := "video"

/-- The word "music". -/
def musicWord : String := "music"

/-- The word "audio". -/
def audioWord : String := "audio"

/-- The word "lyric". -/
def lyricWord : String := "lyric"

/-- The word "hq". -/
def hqWord : String := "hq"

/-- The word "mv". -/
def mvWord : String := "mv"

/-- The word "pv". -/
def pvWord : String := "pv"

/-- The alternation
`official\s+video|music\s+video|official\s+audio|lyric\s+video|hq|mv|pv`
tried at the head, alternatives in source order; returns the remainder
after the first alternative that matches. -/
def tryPromoAlts (l : Str) : Option Str :=
  match matchTwoWords (strToCodes officialWord) (strToCodes videoWord) l with
  | some r => some r
  | none =>
  match matchTwoWords (strToCodes musicWord) (strToCodes videoWord) l with
  | some r => some r
  | none =>
  match matchTwoWords (strToCodes officialWord) (strToCodes audioWord) l with
  | some r => some r
  | none =>
  match matchTwoWords (strToCodes lyricWord) (strToCodes videoWord) l with
  | some r => some r
  | none =>
  match matchLitCI (strToCodes hqWord) l with
  | some r => some r
  | none =>
  match matchLitCI (strToCodes mvWord) l with
  | some r => some r
  | none => matchLitCI (strToCodes pvWord) l

/-- The global replacement of the promotional-token alternation by the
empty string: scan left to right, and after a match resume right after it
(every alternative consumes at least two characters, so the list length is
sufficient fuel). -/
def removePromoFuel : Nat → Str → Str
  | 0, l => l
  | _ + 1, [] => []
  | fuel + 1, c :: rest =>
    match tryPromoAlts (c :: rest) with
    | some r => removePromoFuel fuel r
    | none => c :: removePromoFuel fuel rest

/-- `cleanText` from background.js: strip from the first bracket-like match
to the end of its line, remove promotional tokens globally, then trim. -/
def cleanText (l : Str) : Str :=
  let afterBracket := replaceFirstBracket l
  trimWS (removePromoFuel afterBracket.length afterBracket)

/-! ### Source Orchestrator -/

/-- One element of the `Promise.allSettled` result: a rejected promise or a
fulfilled one carrying a strategy value (`none` models a resolved `null`).
The embedded strategies catch all their errors and so always fulfil, but
the loop of the orchestrator is written over settled results. -/
inductive Settled where
  | rejected
  | fulfilled (value : Option (List LyricLine))

/-- The selection loop of the orchestrator: the first settled result (in task
order) that is fulfilled with a truthy value. A fulfilled empty list is
truthy in JavaScript and is selected; only `null` and rejections are
skipped. -/
def firstTruthy : List Settled → Option (List LyricLine)
  | [] => none
  | Settled.fulfilled (some v) :: _ => some v
  | Settled.fulfilled none :: rest => firstTruthy rest
  | Settled.rejected :: rest => firstTruthy rest

/-- The sentinel text. -/
def notFoundText : String := "Lyrics not found"

/-- The sentinel returned when every strategy fails:
`[{time: 0, text: "Lyrics not found"}]`. -/
def notFound : List LyricLine := [⟨0, strToCodes notFoundText⟩]

/-- The network environment of one orchestrator run: the response each of
the four strategy requests would observe. -/
structure Network where
  getWithAlbum : GetNet
  getNoAlbum : GetNet
  searchRaw : SearchNet
  searchClean : SearchNet

/-- `fetchLyricsHandler` from background.js: sanitize the query, launch
strategies A (get with album), B (get without album) and C (raw search)
concurrently, add strategy D (cleaned search) only when `cleanText`
actually changed the title or artist, await all settled results, and
return the first truthy value in task order, falling back to the
sentinel. -/
def fetchLyricsHandler (title artist album lang : Str) (duration : ℚ)
    (net : Network) : List LyricLine :=
  let sTitle := sanitize title
  let sArtist := sanitize artist
  let sAlbum := sanitize album
  let tasks := [
    Settled.fulfilled (tryApiGet sTitle sArtist sAlbum duration true net.getWithAlbum).2,
    Settled.fulfilled (tryApiGet sTitle sArtist sAlbum duration false net.getNoAlbum).2,
    Settled.fulfilled (tryApiSearch sTitle sArtist sAlbum lang duration net.searchRaw)]
  let cTitle := cleanText title
  let cArtist := cleanText artist
  let tasks := tasks ++
    (if cTitle ≠ title ∨ cArtist ≠ artist then
      [Settled.fulfilled (tryApiSearch cTitle cArtist sAlbum lang duration net.searchClean)]
    else [])
  (firstTruthy tasks).getD notFound

/-! ### Lyrics Cache -/

/-- One cache entry under a `lyric_` key. -/
structure CacheEntry where
  lyrics : List LyricLine
  createdAt : Int
  updatedAt : Int
  lastAccessed : Int
deriving DecidableEq

/-- `CONFIG.ttlRevalidate` = 30 days in milliseconds. -/
def ttlRevalidate : Int := 30 * 24 * 60 * 60 * 1000

/-- `fetchAndCache` from background.js: run the orchestrator and write a
fresh cache entry only when the result has more than one line (the
sentinel alone is never cached). Returns the lyrics and the entry written,
if any. -/
def fetchAndCache (title artist album lang : Str) (duration : ℚ)
    (net : Network) (now : Int) : List LyricLine × Option CacheEntry :=
  let lyrics := fetchLyricsHandler title artist album lang duration net
  if 1 < lyrics.length then
    (lyrics,
      some { lyrics := lyrics, createdAt := now, updatedAt := now, lastAccessed := now })
  else (lyrics, none)

/-- Observable outcome of one `handleLyricsRequest` call: the lyrics
returned to the caller, the cache entry written back (the read-through
touch on a hit, or the fresh entry on a cached miss), whether an
out-of-band background refresh was started, and whether the orchestrator
was invoked synchronously. -/
structure ReqOutcome where
  returned : List LyricLine
  written : Option CacheEntry
  asyncRefresh : Bool
  syncFetch : Bool
deriving DecidableEq

/-- `handleLyricsRequest` from background.js, as a function of the cached
entry found under the key of the query (`none` on a miss or a failed
read). On a hit the `lastAccessed` of the entry is set to `now` and written back
unconditionally, and `fetchAndCache` is started without being awaited
exactly when `now - updatedAt` exceeds `ttlRevalidate`; the cached lyrics
are returned either way. On a miss `fetchAndCache` is awaited. -/
def handleLyricsRequest (title artist album lang : Str) (duration : ℚ)
    (cached : Option CacheEntry) (now : Int) (net : Network) : ReqOutcome :=
  match cached with
  | some c =>
    { returned := c.lyrics,
      written := some { c with lastAccessed := now },
      asyncRefresh := decide (now - c.updatedAt > ttlRevalidate),
      syncFetch := false }
  | none =>
    let r := fetchAndCache title artist album lang duration net now
    { returned := r.1, written := r.2, asyncRefresh := false, syncFetch := true }

/-! ### Player State Store -/

/-- The state snapshot pushed by a content script (`capturePlayerState` in
content.js). Every field is optional: `updatePlayerState` receives an
arbitrary message payload and JavaScript object spread copies exactly the
properties that are present. -/
structure Snapshot where
  title : Option Str
  artist : Option Str
  album : Option Str
  artwork : Option Str
  status : Option Str
  currentTime : Option ℚ
  duration : Option ℚ
  timestamp : Option Int
deriving DecidableEq

/-- A stored entry of the session store: `{ ...playerData, lastUpdated,
tabId }`. -/
structure StoredPlayer where
  data : Snapshot
  lastUpdated : Int
  tabId : Nat
deriving DecidableEq

/-- The session store object, `tabId -> StoredPlayer`. -/
abbrev Store := List (Nat × StoredPlayer)

/-- `store[tabId] = v` on a JavaScript object: overwrite the entry when the
key exists, append it otherwise. -/
def setEntry (store : Store) (k : Nat) (v : StoredPlayer) : Store :=
  if store.any (fun p => p.1 = k) then
    store.map (fun p => if p.1 = k then (k, v) else p)
  else store ++ [(k, v)]

/-- Property read on the store object. -/
def lookupEntry (store : Store) (k : Nat) : Option StoredPlayer :=
  (store.find? (fun p => p.1 = k)).map Prod.snd

/-- Observable outcome of `updatePlayerState`: the persisted store and the
payload of the `storeUpdated` message sent to observers. -/
structure UpdateOutcome where
  store : Store
  notification : Option Store
deriving DecidableEq

/-- `updatePlayerState` from background.js: build
`{ ...playerData, lastUpdated: Date.now(), tabId }`, store it under the
key of the tab, persist, and send one `storeUpdated` message carrying the full
updated map. The message send is followed by `.catch(() => {})`, so a
delivery failure (`deliveryOk = false`, e.g. no popup listening) changes
nothing observable: the parameter does not influence the outcome. -/
def updatePlayerState (store : Store) (tabId : Nat) (playerData : Snapshot)
    (now : Int) (deliveryOk : Bool) : UpdateOutcome :=
  let entry : StoredPlayer := { data := playerData, lastUpdated := now, tabId := tabId }
  let newStore := setEntry store tabId entry
  { store := newStore, notification := some newStore }

/-- Observable outcome of `cleanUpZombies`: the resulting store, whether
`chrome.storage.session.set` was called, and how many `storeUpdated`
messages were sent to observers. -/
structure ZombieOutcome where
  store : Store
  storageSetCalled : Bool
  notificationsSent : Nat
deriving DecidableEq

/-- `cleanUpZombies` from background.js: with an empty store return at
once; otherwise delete every entry whose tab id is not in the live set and
persist only when something was deleted. The function contains no
`sendMessage` call, so no `storeUpdated` notification is ever sent from
here. -/
def cleanUpZombies (store : Store) (liveTabIds : List Nat) : ZombieOutcome :=
  if (store.map Prod.fst).isEmpty then
    { store := store, storageSetCalled := false, notificationsSent := 0 }
  else
    let newStore := store.filter (fun p => liveTabIds.contains p.1)
    let changed := store.any (fun p => !(liveTabIds.contains p.1))
    { store := newStore, storageSetCalled := changed, notificationsSent := 0 }

/-! ### Concrete inputs used by witnesses and counterexamples -/

/-- An empty snapshot (every optional field absent). -/
def emptySnap : Snapshot :=
  ⟨none, none, none, none, none, none, none, none⟩

/-- A stored player entry used as concrete store content. -/
def sampleStored : StoredPlayer :=
  ⟨{ emptySnap with title := some [116] }, 0, 1⟩

/-- A previously stored snapshot that carries an album field (code 88,
the letter X). -/
def oldSnap : Snapshot := { emptySnap with title := some [65], album := some [88] }

/-- The stored entry holding `oldSnap`. -/
def oldStored : StoredPlayer := ⟨oldSnap, 0, 1⟩

/-- A later snapshot for the same tab that carries a title but no album
field. -/
def newSnap : Snapshot := { emptySnap with title := some [66] }

/-- A network environment in which every request throws. -/
def netFailAll : Network := ⟨.failure, .failure, .failure, .failure⟩

/-- The LRC document "[00:01.00]hi". -/
def lrcSampleText : String := "[00:01.00]hi"

/-- A catalog record that matches the witness query (title X, artist Y,
duration 1) perfectly and carries synced lyrics, so the raw search
strategy succeeds with a non-empty lyric list. -/
def searchHitItem : Item :=
  { trackName := [88], artistName := [89], duration := 1,
    syncedLyrics := some (strToCodes lrcSampleText), instrumental := false }

/-- A network environment in which strategy A answers HTTP 200 with a body
whose `syncedLyrics` is the single character x (code 120) — a document
with no timestamp line, parsed to the truthy empty list — while the raw
search also succeeds with a different, non-empty result. -/
def netPriority : Network :=
  ⟨.ok 200 (some [120]), .failure, .ok [searchHitItem], .failure⟩

/-- A cache entry with a one-line lyric and all timestamps zero. -/
def sampleEntry : CacheEntry := ⟨[⟨0, [97]⟩], 0, 0, 0⟩

/-- The language tag "ja-JP". -/
def jaJPTag : String := "ja-JP"

/-- A catalog record with Japanese-script synced lyrics (hiragana
あいうえお, U+3042-U+304A) and metadata agreeing with the query below. -/
def jaSampleItem : Item :=
  { trackName := [84], artistName := [66], duration := 0,
    syncedLyrics := some [0x3042, 0x3044, 0x3046, 0x3048, 0x304A],
    instrumental := false }

/-- The text "hello". -/
def helloText : String := "hello"

/-- A candidate whose artist (code 97, letter a) shares no text with the
query artist used in the C6 witness (code 98, letter b). -/
def gateItem : Item :=
  { trackName := [84], artistName := [97], duration := 200,
    syncedLyrics := some [104, 105], instrumental := true }

/-- The title "Song " (with a trailing space). -/
def songSpaceText : String := "Song "

/-- The title "song". -/
def songLowerText : String := "song"

/-- The artist "Artist". -/
def artistMixedText : String := "Artist"

/-- The artist "ARTIST". -/
def artistUpperText : String := "ARTIST"

/-- The same record with purely Latin lyrics text. -/
def latinSampleItem : Item :=
  { jaSampleItem with syncedLyrics := some (strToCodes helloText) }

end YTM

namespace YTM

/-! ### Store lemmas -/

/-- Overwriting the entry of a present key makes `find?` for that key
return the new pair. -/
theorem find?_mapSet_self (s : Store) (k : Nat) (v : StoredPlayer)
    (hany : s.any (fun p => p.1 = k) = true) :
    (s.map (fun p => if p.1 = k then (k, v) else p)).find?
      (fun p => decide (p.1 = k)) = some (k, v) := by
  induction s with
  | nil => simp at hany
  | cons p rest ih =>
    simp only [List.map_cons]
    by_cases hp : p.1 = k
    · rw [if_pos hp, List.find?_cons_of_pos _ (by simp)]
    · rw [if_neg hp, List.find?_cons_of_neg _ (by simp [hp])]
      simp only [List.any_cons, Bool.or_eq_true, decide_eq_true_eq] at hany
      rcases hany with h | h
      · exact absurd h hp
      · exact ih (by simpa [List.any_eq_true] using h)

/-- Overwriting the entry of key `k` leaves `find?` for any other key
unchanged. -/
theorem find?_mapSet_ne (s : Store) (k k' : Nat) (v : StoredPlayer)
    (h : k' ≠ k) :
    (s.map (fun p => if p.1 = k then (k, v) else p)).find?
      (fun p => decide (p.1 = k')) = s.find? (fun p => decide (p.1 = k')) := by
  induction s with
  | nil => simp
  | cons p rest ih =>
    simp only [List.map_cons]
    by_cases hp : p.1 = k
    · have h1 : ¬ ((k, v).1 = k') := fun hk => h hk.symm
      have h2 : ¬ (p.1 = k') := fun hk => h ((hp ▸ hk).symm)
      rw [if_pos hp, List.find?_cons_of_neg _ (by simpa using h1),
        List.find?_cons_of_neg _ (by simpa using h2)]
      exact ih
    · rw [if_neg hp]
      by_cases hk' : p.1 = k'
      · rw [List.find?_cons_of_pos _ (by simpa using hk'),
          List.find?_cons_of_pos _ (by simpa using hk')]
      · rw [List.find?_cons_of_neg _ (by simpa using hk'),
          List.find?_cons_of_neg _ (by simpa using hk')]
        exact ih

/-- Appending a fresh entry makes `find?` for its key return it when no
existing entry has that key. -/
theorem find?_appendNew_self (s : Store) (k : Nat) (v : StoredPlayer)
    (hnone : s.any (fun p => p.1 = k) = false) :
    (s ++ [(k, v)]).find? (fun p => decide (p.1 = k)) = some (k, v) := by
  induction s with
  | nil => simp [List.find?_cons_of_pos]
  | cons p rest ih =>
    simp only [List.any_cons, Bool.or_eq_false_iff, decide_eq_false_iff_not] at hnone
    rw [List.cons_append, List.find?_cons_of_neg _ (by simpa using hnone.1)]
    exact ih (by simpa [List.any_cons, Bool.or_eq_false_iff, decide_eq_false_iff_not] using hnone.2)

/-- Appending an entry for key `k` leaves `find?` for any other key
unchanged. -/
theorem find?_appendNew_ne (s : Store) (k k' : Nat) (v : StoredPlayer)
    (h : k' ≠ k) :
    (s ++ [(k, v)]).find? (fun p => decide (p.1 = k')) =
      s.find? (fun p => decide (p.1 = k')) := by
  induction s with
  | nil =>
    simp only [List.nil_append, List.find?_nil]
    rw [List.find?_cons_of_neg _ (by simpa using fun hk : (k : Nat) = k' => h hk.symm)]
    exact List.find?_nil
  | cons p rest ih =>
    rw [List.cons_append]
    by_cases hk' : p.1 = k'
    · rw [List.find?_cons_of_pos _ (by simpa using hk'),
        List.find?_cons_of_pos _ (by simpa using hk')]
    · rw [List.find?_cons_of_neg _ (by simpa using hk'),
        List.find?_cons_of_neg _ (by simpa using hk')]
      exact ih

/-- A key written by `setEntry` is read back with the new value. -/
theorem lookupEntry_setEntry_self (store : Store) (k : Nat) (v : StoredPlayer) :
    lookupEntry (setEntry store k v) k = some v := by
  unfold setEntry lookupEntry
  by_cases hany : store.any (fun p => p.1 = k)
  · rw [if_pos hany, find?_mapSet_self store k v hany]
    rfl
  · rw [if_neg hany, find?_appendNew_self store k v (Bool.eq_false_iff.mpr hany ▸ rfl)]
    rfl

/-- Keys other than the written one are unaffected by `setEntry`. -/
theorem lookupEntry_setEntry_ne (store : Store) (k k' : Nat) (v : StoredPlayer)
    (h : k' ≠ k) : lookupEntry (setEntry store k v) k' = lookupEntry store k' := by
  unfold setEntry lookupEntry
  by_cases hany : store.any (fun p => p.1 = k)
  · rw [if_pos hany, find?_mapSet_ne store k k' v h]
  · rw [if_neg hany, find?_appendNew_ne store k k' v h]

/-! ### Claim C3 -/

/-- C3 counterexample: reconciling a one-entry store against an empty live
set removes the entry, yet the number of change notifications sent to
observers is 0, not 1 as the claim states (`cleanUpZombies` contains no
`sendMessage` call). -/
theorem cleanUpZombies_removes_without_notifying :
    (cleanUpZombies [(1, sampleStored)] []).store = [] ∧
    (cleanUpZombies [(1, sampleStored)] []).notificationsSent ≠ 1 := by
  constructor
  · rfl
  · decide

/-- C3 (amended): reconcile deletes exactly the stored entries whose
instance id is absent from the live set and persists the store exactly
when something was deleted, but emits no change notification in either
case; with a live set containing every stored id it changes nothing. -/
theorem cleanUpZombies_spec (store : Store) (live : List Nat) :
    (cleanUpZombies store live).store =
      store.filter (fun p => live.contains p.1) ∧
    (cleanUpZombies store live).notificationsSent = 0 ∧
    ((∃ p ∈ store, live.contains p.1 = false) →
      (cleanUpZombies store live).storageSetCalled = true) ∧
    ((∀ p ∈ store, live.contains p.1 = true) →
      cleanUpZombies store live = ⟨store, false, 0⟩) := by
  unfold cleanUpZombies
  by_cases hemp : (store.map Prod.fst).isEmpty
  · have hstore : store = [] := by
      cases store with
      | nil => rfl
      | cons p rest => simp [List.isEmpty] at hemp
    subst hstore
    simp
  · rw [if_neg hemp]
    refine ⟨rfl, rfl, ?_, ?_⟩
    · rintro ⟨p, hp, hlive⟩
      simp only [List.any_eq_true]
      exact ⟨p, hp, by rw [hlive]; rfl⟩
    · intro hall
      have hfilter : store.filter (fun p => live.contains p.1) = store :=
        List.filter_eq_self.mpr hall
      have hany : (store.any fun p => !(live.contains p.1)) = false := by
        rw [List.any_eq_false]
        intro p hp
        rw [hall p hp]
        simp
      rw [hfilter, hany]

/-- C3 witness: a store whose single entry is live is returned unchanged
with nothing persisted and nothing notified. -/
theorem cleanUpZombies_spec_witness :
    cleanUpZombies [(1, sampleStored)] [1] = ⟨[(1, sampleStored)], false, 0⟩ :=
  (cleanUpZombies_spec [(1, sampleStored)] [1]).2.2.2 (by decide)

/-! ### Claim C4 -/

/-- C4 counterexample: the stored entry for tab 1 carries `album = some
[88]`; after `updatePlayerState` with a snapshot that has no album field,
the stored album is `none` — the field was dropped, not preserved, because
`{ ...playerData, lastUpdated, tabId }` replaces the whole entry. -/
theorem updatePlayerState_drops_absent_fields :
    (lookupEntry [(1, oldStored)] 1).map (fun e => e.data.album) =
      some (some [88]) ∧
    (lookupEntry (updatePlayerState [(1, oldStored)] 1 newSnap 5 true).store 1).map
      (fun e => e.data.album) = some none := by
  constructor
  · rfl
  · rfl

/-- C4 (amended): upsert replaces the stored entry for the instance with
the given snapshot (fields absent from the snapshot are not preserved from
the previous state), stamps `lastUpdated = now` and the tab id, leaves
every other instance untouched, and sends one notification carrying the
full updated map; a delivery failure changes nothing observable. -/
theorem updatePlayerState_spec (store : Store) (tabId : Nat)
    (playerData : Snapshot) (now : Int) (ok : Bool) :
    lookupEntry (updatePlayerState store tabId playerData now ok).store tabId =
      some ⟨playerData, now, tabId⟩ ∧
    (∀ k, k ≠ tabId →
      lookupEntry (updatePlayerState store tabId playerData now ok).store k =
        lookupEntry store k) ∧
    (updatePlayerState store tabId playerData now ok).notification =
      some (updatePlayerState store tabId playerData now ok).store ∧
    updatePlayerState store tabId playerData now ok =
      updatePlayerState store tabId playerData now (!ok) := by
  refine ⟨?_, ?_, rfl, rfl⟩
  · exact lookupEntry_setEntry_self store tabId ⟨playerData, now, tabId⟩
  · intro k hk
    exact lookupEntry_setEntry_ne store tabId k ⟨playerData, now, tabId⟩ hk

/-- C4 witness: updating tab 1 leaves the (absent) entry of tab 2
unchanged. -/
theorem updatePlayerState_spec_witness :
    lookupEntry (updatePlayerState [(1, oldStored)] 1 newSnap 5 true).store 2 =
      lookupEntry [(1, oldStored)] 2 :=
  (updatePlayerState_spec [(1, oldStored)] 1 newSnap 5 true).2.1 2 (by decide)

/-! ### Claim C7 -/

/-- C7: on a cache hit the entry is written back with `lastAccessed = now`
unconditionally; when the age `now - updatedAt` is within the 30-day
revalidation window the cached lyrics are returned with no fetch of any
kind, and when the age exceeds the window the cached lyrics are still
returned while an out-of-band refresh is started (never a synchronous
fetch). -/
theorem handleLyricsRequest_hit_spec (title artist album lang : Str)
    (duration : ℚ) (c : CacheEntry) (now : Int) (net : Network) :
    (handleLyricsRequest title artist album lang duration (some c) now net).written =
      some { c with lastAccessed := now } ∧
    (now - c.updatedAt ≤ ttlRevalidate →
      handleLyricsRequest title artist album lang duration (some c) now net =
        ⟨c.lyrics, some { c with lastAccessed := now }, false, false⟩) ∧
    (now - c.updatedAt > ttlRevalidate →
      handleLyricsRequest title artist album lang duration (some c) now net =
        ⟨c.lyrics, some { c with lastAccessed := now }, true, false⟩) := by
  refine ⟨rfl, ?_, ?_⟩
  · intro hage
    simp [handleLyricsRequest, decide_eq_false (not_lt.mpr hage)]
  · intro hage
    simp [handleLyricsRequest, decide_eq_true hage]

/-- C7 witness: a fresh entry read at time 5 is served from the cache with
its access time touched and no refresh of any kind. -/
theorem handleLyricsRequest_hit_spec_witness :
    handleLyricsRequest [] [] [] [] 0 (some sampleEntry) 5 netFailAll =
      ⟨sampleEntry.lyrics, some { sampleEntry with lastAccessed := 5 }, false, false⟩ :=
  (handleLyricsRequest_hit_spec [] [] [] [] 0 sampleEntry 5 netFailAll).2.1 (by decide)

/-! ### Claim C8 -/

/-- C8: the `ja` script bonus is broken by the corrupted character class.
The language tag "ja-JP" does reduce to the key "ja", and the query/item
pair matches perfectly on artist (+100) and title (+40) with no duration
contribution, but a candidate whose synced lyrics are pure hiragana scores
140 — no +100 script bonus — while the same candidate with pure ASCII
lyrics scores 240, receiving the bonus that the specification reserves for
Japanese-script text. -/
theorem calculateScore_ja_bonus_misfires :
    splitDashHead (strToCodes jaJPTag) = strToCodes jaKey ∧
    calculateScore jaSampleItem [84] [66] (strToCodes jaKey) 0 = 140 ∧
    calculateScore latinSampleItem [84] [66] (strToCodes jaKey) 0 = 240 := by
  refine ⟨rfl, ?_, ?_⟩
  · decide
  · decide

/-! ### Claim C6 -/

/-- C6: when the normalized artist names have zero textual overlap
(neither equal nor contained either way), `calculateScore` returns the
rejection score -9999 whatever the title, language, duration and
instrumental fields are, and that score is below the 70 acceptance
threshold. -/
theorem calculateScore_artist_reject (item : Item)
    (qTitle qArtist userLang : Str) (targetDuration : ℚ)
    (hne : normalize item.artistName ≠ normalize qArtist)
    (h1 : strIncludes (normalize item.artistName) (normalize qArtist) = false)
    (h2 : strIncludes (normalize qArtist) (normalize item.artistName) = false) :
    calculateScore item qTitle qArtist userLang targetDuration = -9999 ∧
    calculateScore item qTitle qArtist userLang targetDuration < 70 := by
  have hcheck : checkArtistMatch item.artistName qArtist = 0 := by
    unfold checkArtistMatch
    rw [if_neg hne, h1, h2]
    rfl
  have hscore : calculateScore item qTitle qArtist userLang targetDuration = -9999 := by
    unfold calculateScore
    rw [hcheck]
    rfl
  exact ⟨hscore, by rw [hscore]; norm_num⟩

/-- C6 witness: artist "a" against artist "b", with a perfect title match,
a plausible duration, synced lyrics present and the instrumental flag set,
is rejected with -9999. -/
theorem calculateScore_artist_reject_witness :
    calculateScore gateItem [84] [98] [] 200 = -9999 ∧
    calculateScore gateItem [84] [98] [] 200 < 70 :=
  calculateScore_artist_reject gateItem [84] [98] [] 200 (by decide) (by decide)
    (by decide)

/-! ### Claim C9 -/

/-- A code point in the retained class is unchanged by `jsToLower` (the
class contains no uppercase ASCII). -/
theorem jsToLower_of_keepNorm {c : Nat} (h : keepNorm c = true) :
    jsToLower c = c := by
  simp only [keepNorm, Bool.or_eq_true, Bool.and_eq_true, decide_eq_true_eq] at h
  unfold jsToLower
  rw [if_neg (by omega)]

/-- `jsToLower` is idempotent. -/
theorem jsToLower_idem (c : Nat) : jsToLower (jsToLower c) = jsToLower c := by
  by_cases h : 65 ≤ c ∧ c ≤ 90
  · have h1 : jsToLower c = c + 32 := by rw [jsToLower, if_pos h]
    rw [h1, jsToLower, if_neg (by omega)]
  · have h1 : jsToLower c = c := by rw [jsToLower, if_neg h]
    rw [h1, h1]

/-- A whitespace code point is not retained by `normalize` (it is outside
the kept ranges and is not an uppercase letter). -/
theorem keepNorm_jsToLower_ws {c : Nat} (h : isJsWS c = true) :
    keepNorm (jsToLower c) = false := by
  simp only [isJsWS, Bool.or_eq_true, Bool.and_eq_true, decide_eq_true_eq] at h
  have hl : jsToLower c = c := by rw [jsToLower, if_neg (by omega)]
  rw [hl]
  simp only [keepNorm, Bool.or_eq_false_iff, Bool.and_eq_false_iff,
    decide_eq_false_iff_not]
  omega

/-- Unfolding `normalize` over a cons cell. -/
theorem normalize_cons (c : Nat) (l : Str) :
    normalize (c :: l) =
      if keepNorm (jsToLower c) = true then jsToLower c :: normalize l
      else normalize l := by
  simp [normalize, List.filter_cons]

/-- C9: cache-key normalization is idempotent, the concrete key for
("Song ", "Artist") equals the key for ("song", "ARTIST"), and in general
the key is unchanged by lowercasing either component or by deleting
whitespace from either component. -/
theorem getCacheKey_normalization :
    (∀ s : Str, normalize (normalize s) = normalize s) ∧
    getCacheKey (strToCodes songSpaceText) (strToCodes artistMixedText) =
      getCacheKey (strToCodes songLowerText) (strToCodes artistUpperText) ∧
    (∀ t a : Str, getCacheKey (t.map jsToLower) a = getCacheKey t a) ∧
    (∀ t a : Str, getCacheKey t (a.map jsToLower) = getCacheKey t a) ∧
    (∀ t a : Str,
      getCacheKey (t.filter fun c => !isJsWS c) a = getCacheKey t a) ∧
    (∀ t a : Str,
      getCacheKey t (a.filter fun c => !isJsWS c) = getCacheKey t a) := by
  have hidem : ∀ s : Str, normalize (normalize s) = normalize s := by
    intro s
    have hmem : ∀ c ∈ normalize s, keepNorm c = true :=
      fun c hc => (List.mem_filter.mp hc).2
    have hmap : (normalize s).map jsToLower = normalize s := by
      have h : (normalize s).map jsToLower = (normalize s).map (fun c => c) :=
        List.map_congr_left (fun c hc => jsToLower_of_keepNorm (hmem c hc))
      rw [h, List.map_id']
    show ((normalize s).map jsToLower).filter keepNorm = normalize s
    rw [hmap]
    exact List.filter_eq_self.mpr hmem
  have hlower : ∀ t : Str, normalize (t.map jsToLower) = normalize t := by
    intro t
    show ((t.map jsToLower).map jsToLower).filter keepNorm = normalize t
    have hcomp : t.map (jsToLower ∘ jsToLower) = t.map jsToLower :=
      List.map_congr_left (fun c _ => jsToLower_idem c)
    rw [List.map_map, hcomp]
    rfl
  have hws : ∀ t : Str, normalize (t.filter fun c => !isJsWS c) = normalize t := by
    intro t
    induction t with
    | nil => rfl
    | cons c rest ih =>
      by_cases hw : isJsWS c
      · rw [List.filter_cons, if_neg (by simp [hw]), ih, normalize_cons,
          if_neg (by simp [keepNorm_jsToLower_ws hw])]
      · rw [List.filter_cons, if_pos (by simp [hw]), normalize_cons,
          normalize_cons, ih]
  refine ⟨hidem, by decide, ?_, ?_, ?_, ?_⟩
  · intro t a
    unfold getCacheKey
    rw [hlower t]
  · intro t a
    unfold getCacheKey
    rw [hlower a]
  · intro t a
    unfold getCacheKey
    rw [hws t]
  · intro t a
    unfold getCacheKey
    rw [hws a]

/-! ### Claim C1 -/

/-- C1: when all four strategies settle with `null` (which is how every
network or parse error surfaces, each strategy catching its own errors),
the orchestrator returns exactly the one-element sentinel
`[{time: 0, text: "Lyrics not found"}]` — never null and never an
exception, the function being total. -/
theorem fetchLyricsHandler_sentinel (title artist album lang : Str)
    (duration : ℚ) (net : Network)
    (hA : (tryApiGet (sanitize title) (sanitize artist) (sanitize album)
      duration true net.getWithAlbum).2 = none)
    (hB : (tryApiGet (sanitize title) (sanitize artist) (sanitize album)
      duration false net.getNoAlbum).2 = none)
    (hC : tryApiSearch (sanitize title) (sanitize artist) (sanitize album)
      lang duration net.searchRaw = none)
    (hD : tryApiSearch (cleanText title) (cleanText artist) (sanitize album)
      lang duration net.searchClean = none) :
    fetchLyricsHandler title artist album lang duration net = notFound := by
  simp only [fetchLyricsHandler]
  rw [hA, hB, hC]
  by_cases hcond : cleanText title ≠ title ∨ cleanText artist ≠ artist
  · rw [if_pos hcond, hD]
    rfl
  · rw [if_neg hcond]
    rfl

/-- C1 witness: with every request throwing, the query (X, Y) with
duration 1 yields exactly the sentinel. -/
theorem fetchLyricsHandler_sentinel_witness :
    fetchLyricsHandler [88] [89] [] [] 1 netFailAll = notFound :=
  fetchLyricsHandler_sentinel [88] [89] [] [] 1 netFailAll rfl rfl rfl rfl

/-! ### Claim C2 -/

/-- C2: the orchestrator picks the first non-null settled value in the
fixed task order A (get with album), B (get without album), C (raw
search), D (cleaned search): whenever A settles non-null its value is
returned whatever B, C and D produced; the value of B is returned when A
was null; that of C when A and B were null; and that of D when A, B and C
were null and
the cleanup changed the text so that D was launched. Completion order
plays no role: `Promise.allSettled` hands the loop the results in task
order. -/
theorem fetchLyricsHandler_priority (title artist album lang : Str)
    (duration : ℚ) (net : Network) :
    (∀ l, (tryApiGet (sanitize title) (sanitize artist) (sanitize album)
        duration true net.getWithAlbum).2 = some l →
      fetchLyricsHandler title artist album lang duration net = l) ∧
    ((tryApiGet (sanitize title) (sanitize artist) (sanitize album)
        duration true net.getWithAlbum).2 = none →
      ∀ l, (tryApiGet (sanitize title) (sanitize artist) (sanitize album)
        duration false net.getNoAlbum).2 = some l →
      fetchLyricsHandler title artist album lang duration net = l) ∧
    ((tryApiGet (sanitize title) (sanitize artist) (sanitize album)
        duration true net.getWithAlbum).2 = none →
      (tryApiGet (sanitize title) (sanitize artist) (sanitize album)
        duration false net.getNoAlbum).2 = none →
      ∀ l, tryApiSearch (sanitize title) (sanitize artist) (sanitize album)
        lang duration net.searchRaw = some l →
      fetchLyricsHandler title artist album lang duration net = l) ∧
    ((tryApiGet (sanitize title) (sanitize artist) (sanitize album)
        duration true net.getWithAlbum).2 = none →
      (tryApiGet (sanitize title) (sanitize artist) (sanitize album)
        duration false net.getNoAlbum).2 = none →
      tryApiSearch (sanitize title) (sanitize artist) (sanitize album)
        lang duration net.searchRaw = none →
      (cleanText title ≠ title ∨ cleanText artist ≠ artist) →
      ∀ l, tryApiSearch (cleanText title) (cleanText artist) (sanitize album)
        lang duration net.searchClean = some l →
      fetchLyricsHandler title artist album lang duration net = l) := by
  refine ⟨?_, ?_, ?_, ?_⟩
  · intro l hA
    simp only [fetchLyricsHandler]
    rw [hA]
    rfl
  · intro hA l hB
    simp only [fetchLyricsHandler]
    rw [hA, hB]
    rfl
  · intro hA hB l hC
    simp only [fetchLyricsHandler]
    rw [hA, hB, hC]
    rfl
  · intro hA hB hC hcond l hD
    simp only [fetchLyricsHandler]
    rw [hA, hB, hC, if_pos hcond, hD]
    rfl

/-- C2 witness: strategy A settles with the (truthy) empty lyric list
while the raw search strategy would also succeed with a different,
non-empty result; the orchestrator returns the value of A. -/
theorem fetchLyricsHandler_priority_witness :
    fetchLyricsHandler [88] [89] [] [] 1 netPriority = [] :=
  (fetchLyricsHandler_priority [88] [89] [] [] 1 netPriority).1 [] rfl

/-! ### Claim C10 -/

/-- C10: with a zero/absent duration (or an empty sanitized title or
artist), strategies A and B return null before issuing any request — the
first component `false` records that no fetch happened — so the final
result is either the sentinel or the value of one of the search
strategies C and D. -/
theorem tryApiGet_guard_skips_network (title artist album lang : Str)
    (duration : ℚ) (net : Network)
    (h : duration = 0 ∨ sanitize title = [] ∨ sanitize artist = []) :
    tryApiGet (sanitize title) (sanitize artist) (sanitize album)
      duration true net.getWithAlbum = (false, none) ∧
    tryApiGet (sanitize title) (sanitize artist) (sanitize album)
      duration false net.getNoAlbum = (false, none) ∧
    (fetchLyricsHandler title artist album lang duration net = notFound ∨
      tryApiSearch (sanitize title) (sanitize artist) (sanitize album)
        lang duration net.searchRaw =
        some (fetchLyricsHandler title artist album lang duration net) ∨
      tryApiSearch (cleanText title) (cleanText artist) (sanitize album)
        lang duration net.searchClean =
        some (fetchLyricsHandler title artist album lang duration net)) := by
  have hguard : ((sanitize title).isEmpty || (sanitize artist).isEmpty ||
      decide (duration = 0)) = true := by
    rcases h with h | h | h
    · simp [h]
    · simp [h]
    · simp [h]
  have hA : tryApiGet (sanitize title) (sanitize artist) (sanitize album)
      duration true net.getWithAlbum = (false, none) := by
    unfold tryApiGet
    rw [if_pos hguard]
  have hB : tryApiGet (sanitize title) (sanitize artist) (sanitize album)
      duration false net.getNoAlbum = (false, none) := by
    unfold tryApiGet
    rw [if_pos hguard]
  refine ⟨hA, hB, ?_⟩
  rcases hC : tryApiSearch (sanitize title) (sanitize artist) (sanitize album)
      lang duration net.searchRaw with _ | l
  · by_cases hcond : cleanText title ≠ title ∨ cleanText artist ≠ artist
    · rcases hD : tryApiSearch (cleanText title) (cleanText artist)
          (sanitize album) lang duration net.searchClean with _ | l
      · refine Or.inl ?_
        simp only [fetchLyricsHandler]
        rw [hA, hB, hC, if_pos hcond, hD]
        try rfl
      · refine Or.inr (Or.inr ?_)
        have hres : fetchLyricsHandler title artist album lang duration net = l := by
          simp only [fetchLyricsHandler]
          rw [hA, hB, hC, if_pos hcond, hD]
          try rfl
        rw [hres]
    · refine Or.inl ?_
      simp only [fetchLyricsHandler]
      rw [hA, hB, hC, if_neg hcond]
      try rfl
  · refine Or.inr (Or.inl ?_)
    have hres : fetchLyricsHandler title artist album lang duration net = l := by
      simp only [fetchLyricsHandler]
      rw [hA, hB, hC]
      try rfl
    rw [hres]

/-- C10 witness: for the query (X, Y) with duration 0 and every request
throwing, both get strategies skip the network and the result is the
sentinel. -/
theorem tryApiGet_guard_skips_network_witness :
    tryApiGet (sanitize [88]) (sanitize [89]) (sanitize [])
      0 true netFailAll.getWithAlbum = (false, none) ∧
    tryApiGet (sanitize [88]) (sanitize [89]) (sanitize [])
      0 false netFailAll.getNoAlbum = (false, none) ∧
    (fetchLyricsHandler [88] [89] [] [] 0 netFailAll = notFound ∨
      tryApiSearch (sanitize [88]) (sanitize [89]) (sanitize [])
        [] 0 netFailAll.searchRaw =
        some (fetchLyricsHandler [88] [89] [] [] 0 netFailAll) ∨
      tryApiSearch (cleanText [88]) (cleanText [89]) (sanitize [])
        [] 0 netFailAll.searchClean =
        some (fetchLyricsHandler [88] [89] [] [] 0 netFailAll)) :=
  tryApiGet_guard_skips_network [88] [89] [] [] 0 netFailAll (Or.inl rfl)

/-! ### Claim C5 -/

/-- A document without a newline splits into the single line it is. -/
theorem splitNL_eq_single (l : Str) (h : (10 : Nat) ∉ l) : splitNL l = [l] := by
  induction l with
  | nil => rfl
  | cons c rest ih =>
    have hc : c ≠ 10 := fun hc => h (hc ▸ List.mem_cons_self c rest)
    have hrest : (10 : Nat) ∉ rest := fun hm => h (List.mem_cons_of_mem c hm)
    simp only [splitNL, if_neg hc, ih hrest]

/-- The timestamp pattern cannot match at a position that does not start
with an opening bracket. -/
theorem matchTimeAt_none_of_head (a : Nat) (r : Str) (h : a ≠ 91) :
    matchTimeAt (a :: r) = none := by
  simp only [matchTimeAt, if_neg h]

/-- Every character of every line produced by `splitNL` is a character of
the document. -/
theorem mem_of_mem_splitNL :
    ∀ doc l : Str, l ∈ splitNL doc → ∀ c ∈ l, c ∈ doc := by
  intro doc
  induction doc with
  | nil =>
    intro l hl c hc
    simp only [splitNL] at hl
    rcases List.mem_singleton.mp hl with rfl
    simp at hc
  | cons a rest ih =>
    intro l hl c hc
    by_cases ha : a = 10
    · rw [splitNL, if_pos ha] at hl
      rcases List.mem_cons.mp hl with rfl | hl
      · simp at hc
      · exact List.mem_cons_of_mem a (ih l hl c hc)
    · rw [splitNL, if_neg ha] at hl
      rcases hrest : splitNL rest with _ | ⟨h0, t0⟩
      · rw [hrest] at hl
        rcases List.mem_singleton.mp hl with rfl
        have hca := List.mem_singleton.mp hc
        rw [hca]
        exact List.mem_cons_self a rest
      · rw [hrest] at hl
        rcases List.mem_cons.mp hl with rfl | hl
        · rcases List.mem_cons.mp hc with rfl | hc
          · exact List.mem_cons_self c rest
          · exact List.mem_cons_of_mem a
              (ih h0 (by rw [hrest]; exact List.mem_cons_self h0 t0) c hc)
        · exact List.mem_cons_of_mem a
            (ih l (by rw [hrest]; exact List.mem_cons_of_mem h0 hl) c hc)

/-- A line containing no opening bracket has no timestamp match at any
position. -/
theorem scanTime_none (l : Str) (h : ∀ c ∈ l, c ≠ 91) : scanTime l = none := by
  induction l with
  | nil => rfl
  | cons c rest ih =>
    have hc : c ≠ 91 := h c (List.mem_cons_self c rest)
    simp only [scanTime, matchTimeAt_none_of_head c rest hc,
      ih (fun d hd => h d (List.mem_cons_of_mem c hd))]
    rfl

/-- The timestamp pattern matches a two-digit fractional field at the
start of the line, greedily stopping at the closing bracket. -/
theorem matchTimeAt_two (m1 m2 s1 s2 f1 f2 : Nat) (text : Str)
    (hd : isDigitC m1 = true ∧ isDigitC m2 = true ∧ isDigitC s1 = true ∧
      isDigitC s2 = true ∧ isDigitC f1 = true ∧ isDigitC f2 = true) :
    matchTimeAt (91 :: m1 :: m2 :: 58 :: s1 :: s2 :: 46 :: f1 :: f2 :: 93 :: text) =
      some (twoDigits m1 m2, twoDigits s1 s2, [f1, f2], 10) := by
  simp [matchTimeAt, hd.1, hd.2.1, hd.2.2.1, hd.2.2.2.1, hd.2.2.2.2.1,
    hd.2.2.2.2.2]

/-- The timestamp pattern matches a three-digit fractional field at the
start of the line: the greedy quantifier takes the third digit because the
closing bracket only follows it. -/
theorem matchTimeAt_three (m1 m2 s1 s2 f1 f2 f3 : Nat) (text : Str)
    (hd : isDigitC m1 = true ∧ isDigitC m2 = true ∧ isDigitC s1 = true ∧
      isDigitC s2 = true ∧ isDigitC f1 = true ∧ isDigitC f2 = true ∧
      isDigitC f3 = true) :
    matchTimeAt
      (91 :: m1 :: m2 :: 58 :: s1 :: s2 :: 46 :: f1 :: f2 :: f3 :: 93 :: text) =
      some (twoDigits m1 m2, twoDigits s1 s2, [f1, f2, f3], 11) := by
  have hf3 : f3 ≠ 93 := by
    have := hd.2.2.2.2.2.2
    simp only [isDigitC, Bool.and_eq_true, decide_eq_true_eq] at this
    omega
  simp [matchTimeAt, hd.1, hd.2.1, hd.2.2.1, hd.2.2.2.1, hd.2.2.2.2.1,
    hd.2.2.2.2.2.1, hd.2.2.2.2.2.2, hf3]

/-- C5: a line `[MM:SS.ff]text` with two-digit minute and second fields, a
two- or three-digit fractional field and remaining text that is non-empty
once trimmed parses to the single line with
`time = MM*60 + SS + (ff as a decimal fraction of a second)` and the
trimmed remainder as text; and a document containing no opening bracket
anywhere parses to the empty line list (every such line is dropped). -/
theorem parseLRC_spec :
    (∀ m1 m2 s1 s2 : Nat, ∀ fr text : Str,
      isDigitC m1 = true → isDigitC m2 = true → isDigitC s1 = true →
      isDigitC s2 = true → (∀ c ∈ fr, isDigitC c = true) →
      (fr.length = 2 ∨ fr.length = 3) → (10 : Nat) ∉ text →
      trimWS text ≠ [] →
      parseLRC (91 :: m1 :: m2 :: 58 :: s1 :: s2 :: 46 :: (fr ++ 93 :: text)) =
        some [⟨((twoDigits m1 m2 * 60 + twoDigits s1 s2 : ℕ) : ℚ) +
          fracOfDigits fr, trimWS text⟩]) ∧
    (∀ doc : Str, (∀ c ∈ doc, c ≠ 91) → doc ≠ [] → parseLRC doc = some []) := by
  constructor
  · intro m1 m2 s1 s2 fr text hm1 hm2 hs1 hs2 hfr hlen hnl htext
    have hno10 : (10 : Nat) ∉
        (91 :: m1 :: m2 :: 58 :: s1 :: s2 :: 46 :: (fr ++ 93 :: text)) := by
      intro hmem
      have hdig : ∀ c : Nat, isDigitC c = true → c ≠ 10 := by
        intro c hc
        simp only [isDigitC, Bool.and_eq_true, decide_eq_true_eq] at hc
        omega
      simp only [List.mem_cons, List.mem_append] at hmem
      rcases hmem with h | h | h | h | h | h | h | h
      · omega
      · exact hdig m1 hm1 h.symm
      · exact hdig m2 hm2 h.symm
      · omega
      · exact hdig s1 hs1 h.symm
      · exact hdig s2 hs2 h.symm
      · omega
      · rcases h with h | h
        · exact hdig 10 (hfr 10 h) rfl
        · rcases h with h | h
          · omega
          · exact hnl h
    have hsplit := splitNL_eq_single _ hno10
    have hmatch : scanTime
        (91 :: m1 :: m2 :: 58 :: s1 :: s2 :: 46 :: (fr ++ 93 :: text)) =
        some ⟨[], twoDigits m1 m2, twoDigits s1 s2, fr, text⟩ := by
      rcases hlen with hlen | hlen
      · rcases fr with _ | ⟨f1, fr⟩
        · simp at hlen
        rcases fr with _ | ⟨f2, fr⟩
        · simp at hlen
        rcases fr with _ | ⟨f3, fr⟩
        · have hf1 := hfr f1 (by simp)
          have hf2 := hfr f2 (by simp)
          simp only [List.cons_append, List.nil_append, scanTime,
            matchTimeAt_two m1 m2 s1 s2 f1 f2 text ⟨hm1, hm2, hs1, hs2, hf1, hf2⟩]
          rfl
        · simp at hlen
      · rcases fr with _ | ⟨f1, fr⟩
        · simp at hlen
        rcases fr with _ | ⟨f2, fr⟩
        · simp at hlen
        rcases fr with _ | ⟨f3, fr⟩
        · simp at hlen
        rcases fr with _ | ⟨f4, fr⟩
        · have hf1 := hfr f1 (by simp)
          have hf2 := hfr f2 (by simp)
          have hf3 := hfr f3 (by simp)
          simp only [List.cons_append, List.nil_append, scanTime,
            matchTimeAt_three m1 m2 s1 s2 f1 f2 f3 text
              ⟨hm1, hm2, hs1, hs2, hf1, hf2, hf3⟩]
          rfl
        · simp at hlen
    have hline : parseLine
        (91 :: m1 :: m2 :: 58 :: s1 :: s2 :: 46 :: (fr ++ 93 :: text)) =
        some ⟨((twoDigits m1 m2 * 60 + twoDigits s1 s2 : ℕ) : ℚ) +
          fracOfDigits fr, trimWS text⟩ := by
      simp only [parseLine, hmatch, List.nil_append, if_neg htext]
    simp only [parseLRC, if_neg (by simp : ¬ (91 :: m1 :: m2 :: 58 :: s1 ::
      s2 :: 46 :: (fr ++ 93 :: text) : Str) = []), hsplit,
      List.filterMap_cons, hline, List.filterMap_nil]
  · intro doc hdoc hne
    have hlines : ∀ l ∈ splitNL doc, parseLine l = none := by
      intro l hl
      have : scanTime l = none :=
        scanTime_none l (fun c hc => hdoc c (mem_of_mem_splitNL doc l hl c hc))
      simp only [parseLine, this]
    rw [parseLRC, if_neg hne]
    congr 1
    exact List.filterMap_eq_nil_iff.mpr hlines

/-- C5 witness: the line "[01:02.50] hi" (codes below) parses to time
1*60 + 2 + 50/100 with trimmed text "hi", and the bracket-free document
"no stamp" parses to the empty list. -/
theorem parseLRC_spec_witness :
    parseLRC (91 :: 48 :: 49 :: 58 :: 48 :: 50 :: 46 ::
        ([53, 48] ++ 93 :: [32, 104, 105])) =
      some [⟨((twoDigits 48 49 * 60 + twoDigits 48 50 : ℕ) : ℚ) +
        fracOfDigits [53, 48], trimWS [32, 104, 105]⟩] ∧
    parseLRC [110, 111] = some [] :=
  ⟨parseLRC_spec.1 48 49 48 50 [53, 48] [32, 104, 105] rfl rfl rfl rfl
      (by decide) (Or.inl rfl) (by decide) (by decide),
    parseLRC_spec.2 [110, 111] (by decide) (by decide)⟩

end YTM
